import Mathlib

/-!
Verification of the csv-sniffer metadata layer (src/metadata.rs) against its
natural-language specification.  The data model (Metadata, Dialect, Header,
Quote, Escape, Comment) and the `From<Dialect> for ReaderBuilder` conversion
are embedded directly from the source.  Components of the crate that are not
part of the provided source tree (the sniffing engine in lib.rs, the preamble
snipper in snip.rs, the `Type` enum in field_type.rs) are modelled from the
specification; each such definition is marked `Modelled from the spec:` in its
doc comment.  Machine bytes (`u8`) are modelled as `Nat`; no arithmetic here
ever exceeds a byte, so no wraparound modelling is required.
-/

namespace Csv

/-- Header metadata (source: `struct Header`, src/metadata.rs lines 159-167):
whether the file has a header row, and the number of preamble rows before the
header/first data row. -/
structure Header where
  has_header_row : Bool
  num_preamble_rows : Nat
deriving DecidableEq

/-- Quoting style (source: `enum Quote`, src/metadata.rs lines 169-176).  The
source enum has exactly two variants: `None` (quotes unused) and `Some(u8)`
carrying only the quote byte. -/
inductive Quote where
  | None : Quote
  | Some (c : Nat) : Quote
deriving DecidableEq

/-- Escape style (source: `enum Escape`, src/metadata.rs lines 189-196). -/
inductive Escape where
  | Enabled (c : Nat) : Escape
  | Disabled : Escape
deriving DecidableEq

/-- Comment style (source: `enum Comment`, src/metadata.rs lines 214-221). -/
inductive Comment where
  | Enabled (c : Nat) : Comment
  | Disabled : Comment
deriving DecidableEq

/-- Dialect-level metadata (source: `struct Dialect`, src/metadata.rs lines
68-80).  The source struct has exactly these five fields; in particular it has
no escape, comment, or doubled-quote-flag field. -/
structure Dialect where
  delimiter : Nat
  header : Header
  quote : Quote
  flexible : Bool
  is_utf8 : Bool
deriving DecidableEq

/-- Structural equality on `Dialect` (source: `impl PartialEq for Dialect`,
src/metadata.rs lines 81-89): conjunction of equality of the five fields. -/
def dialectEq (a b : Dialect) : Bool :=
  decide (a.delimiter = b.delimiter) && decide (a.header = b.header)
    && decide (a.quote = b.quote) && decide (a.flexible = b.flexible)
    && decide (a.is_utf8 = b.is_utf8)

/-- Conversion of `Escape` to an optional byte (source:
`impl From<Escape> for Option<u8>`, src/metadata.rs lines 197-204). -/
def escapeToOption : Escape → Option Nat
  | Escape.Enabled c => Option.some c
  | Escape.Disabled => Option.none

/-- Conversion of `Comment` to an optional byte (source:
`impl From<Comment> for Option<u8>`, src/metadata.rs lines 222-229). -/
def commentToOption : Comment → Option Nat
  | Comment.Enabled c => Option.some c
  | Comment.Disabled => Option.none

/-- Quote byte recovered from a `Quote` value by pattern matching, as the
source does in `impl fmt::Display for Dialect` (src/metadata.rs lines
111-118). -/
def quoteChar : Quote → Option Nat
  | Quote.Some c => Option.some c
  | Quote.None => Option.none

/-- Interface model of the external `csv::ReaderBuilder`: the record of
tokenizer settings reachable through its builder methods.  Only the settings
relevant to this crate's conversion and to the spec's claimed configuration
axes are modelled. -/
structure ReaderBuilder where
  delimiter : Nat
  has_headers : Bool
  flexible : Bool
  quoting : Bool
  quote : Nat
  escape : Option Nat
  comment : Option Nat
  double_quote : Bool
deriving DecidableEq

/-- Defaults of `csv::ReaderBuilder::new()`: comma delimiter, headers on,
not flexible, quoting on with double-quote byte 34, doubled-quote escapes on,
no escape byte, no comment byte. -/
def ReaderBuilder.new : ReaderBuilder :=
  { delimiter := 44, has_headers := true, flexible := false,
    quoting := true, quote := 34, escape := Option.none,
    comment := Option.none, double_quote := true }

/-- The `From<Dialect> for ReaderBuilder` conversion (source: src/metadata.rs
lines 138-157): sets delimiter, has_headers and flexible from the dialect,
then enables quoting with the dialect's quote byte when `Quote::Some`, or
disables quoting when `Quote::None`.  No other builder method is called. -/
def readerBuilderOfDialect (d : Dialect) : ReaderBuilder :=
  let b := { ReaderBuilder.new with
    delimiter := d.delimiter,
    has_headers := d.header.has_header_row,
    flexible := d.flexible }
  match d.quote with
  | Quote.Some c => { b with quoting := true, quote := c }
  | Quote.None => { b with quoting := false }

/-- Modelled from the spec: the specification's field list for `Dialect`
(spec section 3) claims axes delimiter, header, quote with a doubled-quote
flag, escape, comment, flexible and is_utf8.  The source `Dialect` (above)
has no escape, comment, or doubled-quote slot, so a constructor taking the
spec's axes can only drop those three inputs. -/
def dialectOfSpecAxes (delim : Nat) (hdr : Header) (q : Quote) (dq : Bool)
    (esc : Escape) (com : Comment) (flex : Bool) (utf8 : Bool) : Dialect :=
  { delimiter := delim, header := hdr, quote := q, flexible := flex,
    is_utf8 := utf8 }

/-- Modelled from the spec: the specification (section 3) describes the
enabled `Quote` variant as carrying both the quote byte and a doubled-quote
escape flag.  The source `Quote::Some` (above) stores only the byte, so a
constructor taking the spec's two components can only drop the flag. -/
def quoteOfSpec (c : Nat) (doubled : Bool) : Quote :=
  Quote.Some c

/-- Splits a byte list on a separator byte, accumulating the current field in
reverse.  Shared helper for line splitting (separator 10) and quote-naive
field splitting (separator = delimiter candidate). -/
def splitOnByte (d : Nat) : List Nat → List Nat → List (List Nat)
  | [], cur => [cur.reverse]
  | b :: rest, cur =>
    if b = d then cur.reverse :: splitOnByte d rest []
    else splitOnByte d rest (b :: cur)

/-- Modelled from the spec: line decomposition of the raw sample (sniffing
engine, not under src/).  Lines are separated by the newline byte 10; a
trailing newline does not introduce an empty final row, and an empty sample
has no lines. -/
def splitLines (s : List Nat) : List (List Nat) :=
  if s = [] then []
  else
    let ls := splitOnByte 10 s []
    if ls.getLastD [] = [] then ls.dropLast else ls

/-- Modelled from the spec: quote-naive field split of one line under a
delimiter candidate (spec section 4.2 scores candidates "quote-naively
first"). -/
def splitFields (d : Nat) (line : List Nat) : List (List Nat) :=
  splitOnByte d line []

/-- Modelled from the spec: quote-aware field split (spec sections 4.1 and
4.2 require "quote-aware field counts"): a delimiter occurring between an
opening and a closing quote byte does not split. -/
def splitFieldsQAux (d qc : Nat) : List Nat → Bool → List Nat → List (List Nat)
  | [], _, cur => [cur.reverse]
  | b :: rest, inQ, cur =>
    if b = qc then splitFieldsQAux d qc rest (!inQ) (b :: cur)
    else if b = d ∧ inQ = false then cur.reverse :: splitFieldsQAux d qc rest false []
    else splitFieldsQAux d qc rest inQ (b :: cur)

/-- Modelled from the spec: quote-aware split of one line, entry point. -/
def splitFieldsQ (d qc : Nat) (line : List Nat) : List (List Nat) :=
  splitFieldsQAux d qc line false []

/-- Modelled from the spec: removes a wrapping quote pair from a raw field
value, so type inference sees the field content. -/
def stripQuote (qc : Nat) (f : List Nat) : List Nat :=
  if 2 ≤ f.length ∧ f.headD 0 = qc ∧ f.getLastD 0 = qc then
    (f.drop 1).dropLast
  else f

/-- Modelled from the spec: the fixed candidate delimiter set of the
inferrer (spec section 4.2): comma, tab, semicolon, pipe. -/
def candidates : List Nat := [44, 9, 59, 124]

/-- Modelled from the spec: quote-naive field count of a line under a
candidate delimiter. -/
def fieldCount (d : Nat) (line : List Nat) : Nat :=
  (splitFields d line).length

/-- Modelled from the spec: a line participates in tabular structure when
some candidate delimiter splits it into at least two fields (spec section
4.1 classifies a line "non-tabular" when every candidate yields a field
count of 1). -/
def lineTabular (line : List Nat) : Bool :=
  candidates.any (fun d => decide (2 ≤ fieldCount d line))

/-- Modelled from the spec: a strict majority of the given lines split into
multiple fields under some common candidate delimiter (spec section 4.1's
consistency requirement on the lines following the preamble). -/
def majorityTabular (ls : List (List Nat)) : Bool :=
  candidates.any (fun d =>
    decide (ls.length < 2 * (ls.filter (fun l => decide (2 ≤ fieldCount d l))).length))

/-- Modelled from the spec: preamble length (spec section 4.1) — the index
of the first line that splits under some candidate, provided a strict
majority of the lines from that point on split under a common candidate;
otherwise 0 (assume no preamble rather than failing). -/
def preambleLen (ls : List (List Nat)) : Nat :=
  match ls.findIdx? lineTabular with
  | Option.some i => if majorityTabular (ls.drop i) then i else 0
  | Option.none => 0

/-- Modelled from the spec: the value occurring most often in a list of
field counts (the modal field count of spec section 4.2); ties between
equally frequent values resolve to the smaller value, and the modal count of
an empty list is 0. -/
def modalCount (counts : List Nat) : Nat :=
  counts.foldl
    (fun best c =>
      if counts.count best < counts.count c ∨
          (counts.count c = counts.count best ∧ c < best) then c
      else best)
    0

/-- Modelled from the spec: the score sheet of one delimiter candidate (spec
section 4.2): its modal quote-naive field count, the number of rows hitting
that modal count (the score, over a shared denominator), and the number of
distinct field-count values (the first tie-breaker). -/
structure CandScore where
  delim : Nat
  modal : Nat
  score : Nat
  distinct : Nat
deriving DecidableEq

/-- Modelled from the spec: evaluates one candidate delimiter against the
structural lines. -/
def evalCand (ls : List (List Nat)) (d : Nat) : CandScore :=
  let counts := ls.map (fieldCount d)
  let m := modalCount counts
  { delim := d, modal := m, score := counts.count m,
    distinct := counts.dedup.length }

/-- Modelled from the spec: candidate preference (spec section 4.2): higher
score first, then fewer distinct field-count values, then the smaller
delimiter byte. -/
def betterCand (a b : CandScore) : Bool :=
  decide (a.score < b.score) ||
    (decide (b.score = a.score) &&
      (decide (b.distinct < a.distinct) ||
        (decide (b.distinct = a.distinct) && decide (b.delim < a.delim))))

/-- Modelled from the spec: selects the winning delimiter candidate.
Candidates whose modal field count is 1 are disqualified unless every
candidate's modal count is below 2 (spec section 4.2). -/
def pickDelim (ls : List (List Nat)) : CandScore :=
  let scored := candidates.map (evalCand ls)
  let qualified := scored.filter (fun c => decide (2 ≤ c.modal))
  let pool := if qualified.isEmpty then scored else qualified
  match pool with
  | [] => { delim := 44, modal := 1, score := 0, distinct := 0 }
  | h :: t => t.foldl (fun best c => if betterCand best c then c else best) h

/-- Modelled from the spec: whether a raw field is wrapped in the byte `q`
(spec section 4.2's quote detection looks for a byte appearing as the first
and last character of fields). -/
def fieldQuoted (q : Nat) (f : List Nat) : Bool :=
  decide (2 ≤ f.length) && decide (f.headD 0 = q) && decide (f.getLastD 0 = q)

/-- Modelled from the spec: whether some field of a line, split under the
winning delimiter, is wrapped in the byte `q`. -/
def rowHasQuoted (q d : Nat) (line : List Nat) : Bool :=
  (splitFields d line).any (fieldQuoted q)

/-- Modelled from the spec: quote detection for the winning delimiter (spec
section 4.2): a quote byte is declared when it wraps fields in at least two
rows; the double-quote byte 34 is preferred over the single-quote byte 39;
otherwise quoting is disabled.  The source `Quote` has no doubled-quote
flag, so none is produced. -/
def quoteDetect (d : Nat) (ls : List (List Nat)) : Quote :=
  match [34, 39].find? (fun q =>
      decide (2 ≤ (ls.filter (rowHasQuoted q d)).length)) with
  | Option.some q => Quote.Some q
  | Option.none => Quote.None

/-- Modelled from the spec: parses one structural line into raw field
values: quote-aware split under the detected quote byte with wrapping
quotes stripped, or the plain split when quoting is disabled. -/
def parseRow (d : Nat) (q : Quote) (line : List Nat) : List (List Nat) :=
  match q with
  | Quote.Some qc => (splitFieldsQ d qc line).map (stripQuote qc)
  | Quote.None => splitFields d line

/-- Modelled from the spec: the closed type lattice of the inferrer
(field_type.rs is not under src/; spec sections 3 and 4.4): a chain ordered
from most to least specific, Boolean below Integer below Float below Text. -/
inductive FieldType where
  | Boolean : FieldType
  | Integer : FieldType
  | Float : FieldType
  | Text : FieldType
deriving DecidableEq

/-- Modelled from the spec: position of a type in the specificity chain
(larger means less specific / more general). -/
def FieldType.rank : FieldType → Nat
  | FieldType.Boolean => 0
  | FieldType.Integer => 1
  | FieldType.Float => 2
  | FieldType.Text => 3

/-- Modelled from the spec: the join of two types is the less specific of
the two on the fixed lattice ordering (spec section 4.4); Text is
absorbing. -/
def FieldType.join (a b : FieldType) : FieldType :=
  if a.rank ≤ b.rank then b else a

/-- Byte-level lowercase fold for ASCII letters, used by the
case-insensitive Boolean literal check. -/
def lowerByte (b : Nat) : Nat :=
  if 65 ≤ b ∧ b ≤ 90 then b + 32 else b

/-- Modelled from the spec: Boolean classification (spec section 4.4): the
recognized literal set is true/false, case-insensitive. -/
def isBoolBytes (v : List Nat) : Bool :=
  decide (v.map lowerByte = [116, 114, 117, 101]) ||
    decide (v.map lowerByte = [102, 97, 108, 115, 101])

/-- Whether a byte is an ASCII decimal digit. -/
def isDigit (b : Nat) : Bool :=
  decide (48 ≤ b ∧ b ≤ 57)

/-- Drops a single leading ASCII sign byte (+ or -), if present. -/
def dropSign (v : List Nat) : List Nat :=
  match v with
  | b :: rest => if b = 43 ∨ b = 45 then rest else v
  | [] => v

/-- Modelled from the spec: Integer classification (spec section 4.4):
optional sign followed by a nonempty digit string. -/
def isIntBytes (v : List Nat) : Bool :=
  let w := dropSign v
  !w.isEmpty && w.all isDigit

/-- Modelled from the spec: Float classification (spec section 4.4):
optional sign, then digits with at most one decimal point and at least one
digit. -/
def isFloatBytes (v : List Nat) : Bool :=
  let w := dropSign v
  w.all (fun b => isDigit b || decide (b = 46)) &&
    decide ((w.filter (fun b => decide (b = 46))).length ≤ 1) &&
    w.any isDigit

/-- Modelled from the spec: per-value classification in most-to-least
specific order (spec section 4.4).  The empty value classifies as `none`:
it is compatible with any type and contributes no information. -/
def classify (v : List Nat) : Option FieldType :=
  if v = [] then Option.none
  else if isBoolBytes v then Option.some FieldType.Boolean
  else if isIntBytes v then Option.some FieldType.Integer
  else if isFloatBytes v then Option.some FieldType.Float
  else Option.some FieldType.Text

/-- Modelled from the spec: the join over the classifications of a column's
values, `none` when every value was empty. -/
def columnTypeOpt (vals : List (List Nat)) : Option FieldType :=
  vals.foldl
    (fun acc v =>
      match acc, classify v with
      | Option.some a, Option.some b => Option.some (a.join b)
      | Option.some a, Option.none => Option.some a
      | Option.none, r => r)
    Option.none

/-- Modelled from the spec: a column's inferred type.  The spec leaves a
column whose sampled values are all empty unspecified; the most general
type, Text, is used. -/
def columnType (vals : List (List Nat)) : FieldType :=
  match columnTypeOpt vals with
  | Option.some t => t
  | Option.none => FieldType.Text

/-- Modelled from the spec: header detection (spec section 4.3): column `c`
votes for a header when row 0's classified type is strictly more general
than the join of the data rows' types in that column (row 0 "looks like a
label, not data", e.g. Text over Integer); a header is declared when a
strict majority of the `n` columns vote; ties and single-row samples
default to no header. -/
def headerDetect (rows : List (List (List Nat))) (n : Nat) : Bool :=
  match rows with
  | [] => false
  | r0 :: rest =>
    if rest.isEmpty then false
    else
      let votes := ((List.range n).filter (fun c =>
        match classify (r0.getD c []), columnTypeOpt (rest.map (fun r => r.getD c [])) with
        | Option.some a, Option.some b => decide (b.rank < a.rank)
        | _, _ => false)).length
      decide (n < 2 * votes)

/-- One step of the UTF-8 validation automaton over byte values.  State 0
accepts; states 1-3 await that many unconstrained continuation bytes;
states 4-7 encode the constrained second byte after lead bytes 0xE0, 0xED,
0xF0 and 0xF4; state 8 is the dead state. -/
def utf8Step (st b : Nat) : Nat :=
  if st = 0 then
    if b < 128 then 0
    else if b < 194 then 8
    else if b ≤ 223 then 1
    else if b = 224 then 4
    else if b ≤ 236 then 2
    else if b = 237 then 5
    else if b ≤ 239 then 2
    else if b = 240 then 6
    else if b ≤ 243 then 3
    else if b = 244 then 7
    else 8
  else if st = 1 then if 128 ≤ b ∧ b < 192 then 0 else 8
  else if st = 2 then if 128 ≤ b ∧ b < 192 then 1 else 8
  else if st = 3 then if 128 ≤ b ∧ b < 192 then 2 else 8
  else if st = 4 then if 160 ≤ b ∧ b < 192 then 1 else 8
  else if st = 5 then if 128 ≤ b ∧ b < 160 then 1 else 8
  else if st = 6 then if 144 ≤ b ∧ b < 192 then 2 else 8
  else if st = 7 then if 128 ≤ b ∧ b < 144 then 2 else 8
  else 8

/-- Runs the UTF-8 automaton over a byte list from a starting state. -/
def utf8Run (st : Nat) (l : List Nat) : Nat :=
  l.foldl utf8Step st

/-- UTF-8 validity of a byte list: the automaton, started in the accepting
state, ends in the accepting state.  This models the whole-sample
validation behind `is_utf8` and the `simdutf8` check in the display code. -/
def validUtf8 (l : List Nat) : Bool :=
  decide (utf8Run 0 l = 0)

/-- Byte-wise decoding of raw bytes into a model string, used only to carry
sampled header names into the `fields` vector of the model. -/
def bytesAsString (l : List Nat) : String :=
  String.mk (l.map Char.ofNat)

/-- Primary CSV metadata (source: `struct Metadata`, src/metadata.rs lines
18-30): dialect, average record length in bytes, number of fields, column
names and inferred column types. -/
structure Metadata where
  dialect : Dialect
  avg_record_len : Nat
  num_fields : Nat
  fields : List String
  types : List FieldType
deriving DecidableEq

/-- Modelled from the spec: the full sniffing pipeline (lib.rs is not under
src/; spec sections 2 and 4): preamble skipping, delimiter scoring, quote
detection, header detection, per-column type inference and metadata
assembly, as one pure function from the sample bytes to `Metadata`. -/
def sniff (sample : List Nat) : Metadata :=
  let allLines := splitLines sample
  let p := preambleLen allLines
  let ls := allLines.drop p
  let best := pickDelim ls
  let d := best.delim
  let q := quoteDetect d ls
  let rows := ls.map (parseRow d q)
  let flex := decide (1 < (rows.map List.length).dedup.length)
  let n := modalCount (rows.map List.length)
  let hasHeader := headerDetect rows n
  let dataRows := if hasHeader then rows.drop 1 else rows
  let types := (List.range n).map (fun c => columnType (dataRows.map (fun r => r.getD c [])))
  let fields :=
    if hasHeader then (List.range n).map (fun c => bytesAsString ((rows.headD []).getD c []))
    else (List.range n).map (fun c => "field " ++ toString c)
  let avg := (ls.map List.length).sum / ls.length
  { dialect :=
      { delimiter := d,
        header := { has_header_row := hasHeader, num_preamble_rows := p },
        quote := q, flexible := flex, is_utf8 := validUtf8 sample },
    avg_record_len := avg, num_fields := n, fields := fields, types := types }

/-- Advances a byte stream past one line: drops bytes through the first
newline byte, or the whole stream when no newline remains. -/
def dropLine : List Nat → List Nat
  | [] => []
  | b :: rest => if b = 10 then rest else dropLine rest

/-- Modelled from the spec: `snip_preamble` (module snip, not under src/):
advances the stream past exactly `n` lines before the tokenizer reader is
built. -/
def snipPreamble : Nat → List Nat → List Nat
  | 0, s => s
  | n + 1, s => snipPreamble n (dropLine s)

/-- The `Dialect::open_reader` flow (source: src/metadata.rs lines 132-136):
snips `num_preamble_rows` lines off the stream, derives a `ReaderBuilder`
from the dialect, and hands the builder the remaining stream.  The model
returns the builder settings together with the stream the reader will
consume. -/
def openReader (d : Dialect) (s : List Nat) : ReaderBuilder × List Nat :=
  (readerBuilderOfDialect d, snipPreamble d.header.num_preamble_rows s)

/-- ASCII decimal digits of a natural number, as the `{}` formatting of the
row index produces them. -/
def natDigits (n : Nat) : List Nat :=
  if h : n < 10 then [48 + n]
  else natDigits (n / 10) ++ [48 + n % 10]
decreasing_by exact Nat.div_lt_self (by omega) (by omega)

/-- Modelled from the spec: the ASCII rendering of a type name, as the
`Display` of the `Type` enum (field_type.rs, not under src/) produces it. -/
def typeNameBytes : FieldType → List Nat
  | FieldType.Boolean => [66, 111, 111, 108, 101, 97, 110]
  | FieldType.Integer => [73, 110, 116, 101, 103, 101, 114]
  | FieldType.Float => [70, 108, 111, 97, 116]
  | FieldType.Text => [84, 101, 120, 116]

/-- UTF-8 encoding of one Unicode scalar value. -/
def utf8EncodeChar (c : Nat) : List Nat :=
  if c < 128 then [c]
  else if c < 2048 then [192 + c / 64, 128 + c % 64]
  else if c < 65536 then [224 + c / 4096, 128 + c / 64 % 64, 128 + c % 64]
  else [240 + c / 262144, 128 + c / 4096 % 64, 128 + c / 64 % 64, 128 + c % 64]

/-- UTF-8 byte encoding of a model string, the bytes a Rust `String` holds. -/
def strBytes (s : String) : List Nat :=
  (s.data.map (fun c => utf8EncodeChar c.toNat)).flatten

/-- One row of the per-column table of `impl fmt::Display for Metadata`
(source: src/metadata.rs lines 42-51): the index, the inferred type, and
the field name — the empty string when `fields` has no entry at the
index. -/
def displayRows (m : Metadata) : List (Nat × FieldType × String) :=
  m.types.enum.map (fun p => (p.1, p.2, m.fields.getD p.1 ""))

/-- Bytes written to the tab writer for one table row, following the format
string of src/metadata.rs line 45: tab, index, colon, tab, type, tab, name,
newline. -/
def rowBytes : Nat × FieldType × String → List Nat
  | (i, ty, name) =>
    9 :: (natDigits i ++ [58, 9] ++ typeNameBytes ty ++ [9] ++ strBytes name ++ [10])

/-- The whole byte buffer written to the tab writer by the display loop
(source: src/metadata.rs lines 40-51). -/
def fieldTableBuf (m : Metadata) : List Nat :=
  ((displayRows m).map rowBytes).flatten

/-- Interface model of the external tabwriter crate's alignment: its output
arises from the written bytes by replacing each cell-separating tab byte
with a run of ASCII space bytes and keeping every other byte. -/
inductive TabExpand : List Nat → List Nat → Prop where
  | nil : TabExpand [] []
  | keep (b : Nat) (l out : List Nat) (hb : b ≠ 9) (h : TabExpand l out) :
      TabExpand (b :: l) (b :: out)
  | tab (k : Nat) (l out : List Nat) (h : TabExpand l out) :
      TabExpand (9 :: l) (List.replicate k 32 ++ out)

/-- One concrete alignment in the `TabExpand` family: each tab becomes a
single space.  Used to exhibit concrete tabwriter outputs. -/
def tabExpandOne : List Nat → List Nat
  | [] => []
  | b :: l => (if b = 9 then 32 else b) :: tabExpandOne l

/-- The tail of `impl fmt::Display for Metadata` (source: src/metadata.rs
lines 52-60) modelled over a tabwriter output `aligned`: flush and
`into_inner` on a `Vec<u8>`-backed writer are infallible, so the only
fallible step left is the UTF-8 validation unwrap, which yields the final
table text exactly when the aligned buffer is valid UTF-8. -/
def displayFieldTable (aligned : List Nat) : Option (List Nat) :=
  if validUtf8 aligned then Option.some aligned else Option.none

/-- Modelled from the spec: the end-to-end example of spec section 8, as a
byte sample. -/
def exampleSample : List Nat :=
  ("Report generated 2023-01-01\n\nid,name,active\n1,Alice,true\n2,Bob,false\n".data.map Char.toNat)

theorem utf8Run_append (st : Nat) (a b : List Nat) :
    utf8Run st (a ++ b) = utf8Run (utf8Run st a) b :=
  List.foldl_append utf8Step st a b

theorem validUtf8_append {a b : List Nat} (ha : validUtf8 a = true)
    (hb : validUtf8 b = true) : validUtf8 (a ++ b) = true := by
  simp only [validUtf8, decide_eq_true_eq] at *
  rw [utf8Run_append, ha, hb]

theorem validUtf8_flatten {L : List (List Nat)}
    (h : ∀ x ∈ L, validUtf8 x = true) : validUtf8 L.flatten = true := by
  induction L with
  | nil => decide
  | cons x xs ih =>
    rw [List.flatten_cons]
    exact validUtf8_append (h x (by simp)) (ih fun y hy => h y (by simp [hy]))

theorem utf8Step_ascii {b : Nat} (hb : b < 128) : utf8Step 0 b = 0 := by
  simp [utf8Step, hb]

theorem utf8Run_ascii {l : List Nat} (h : ∀ b ∈ l, b < 128) :
    utf8Run 0 l = 0 := by
  induction l with
  | nil => rfl
  | cons b t ih =>
    have : utf8Step 0 b = 0 := utf8Step_ascii (h b (by simp))
    simp only [utf8Run, List.foldl_cons, this]
    exact ih fun x hx => h x (by simp [hx])

theorem validUtf8_ascii {l : List Nat} (h : ∀ b ∈ l, b < 128) :
    validUtf8 l = true := by
  simp [validUtf8, utf8Run_ascii h]

theorem utf8Step_dead (b : Nat) : utf8Step 8 b = 8 := by
  simp [utf8Step]

theorem utf8Run_dead (l : List Nat) : utf8Run 8 l = 8 := by
  induction l with
  | nil => rfl
  | cons b t ih => simp only [utf8Run, List.foldl_cons, utf8Step_dead]; exact ih

theorem utf8Step_tab (st : Nat) : utf8Step st 9 = if st = 0 then 0 else 8 := by
  match st with
  | 0 => decide
  | 1 => decide
  | 2 => decide
  | 3 => decide
  | 4 => decide
  | 5 => decide
  | 6 => decide
  | 7 => decide
  | n + 8 =>
    rw [if_neg (show ¬ n + 8 = 0 by omega)]
    unfold utf8Step
    rw [if_neg (show ¬ n + 8 = 0 by omega), if_neg (show ¬ n + 8 = 1 by omega),
      if_neg (show ¬ n + 8 = 2 by omega), if_neg (show ¬ n + 8 = 3 by omega),
      if_neg (show ¬ n + 8 = 4 by omega), if_neg (show ¬ n + 8 = 5 by omega),
      if_neg (show ¬ n + 8 = 6 by omega), if_neg (show ¬ n + 8 = 7 by omega)]

theorem utf8Run_replicate_space (k : Nat) :
    utf8Run 0 (List.replicate k 32) = 0 := by
  induction k with
  | zero => rfl
  | succ n ih =>
    rw [List.replicate_succ]
    simpa only [utf8Run, List.foldl_cons, utf8Step, show (32:Nat) < 128 by omega,
      if_pos rfl, if_true] using ih

theorem tabExpand_run {l out : List Nat} (h : TabExpand l out) :
    ∀ st, utf8Run st l = 0 → utf8Run st out = 0 := by
  induction h with
  | nil => intro st h0; exact h0
  | keep b l out hb h ih =>
    intro st h0
    exact ih (utf8Step st b) h0
  | tab k l out h ih =>
    intro st h0
    have hstep : utf8Run st (9 :: l) = utf8Run (utf8Step st 9) l := rfl
    rw [hstep, utf8Step_tab] at h0
    by_cases hst : st = 0
    · subst hst
      rw [if_pos rfl] at h0
      rw [utf8Run_append, utf8Run_replicate_space]
      exact ih 0 h0
    · rw [if_neg hst, utf8Run_dead] at h0
      omega

theorem tabExpand_valid {l out : List Nat} (h : TabExpand l out)
    (hl : validUtf8 l = true) : validUtf8 out = true := by
  simp only [validUtf8, decide_eq_true_eq] at *
  exact tabExpand_run h 0 hl

theorem tabExpandOne_spec (l : List Nat) : TabExpand l (tabExpandOne l) := by
  induction l with
  | nil => exact TabExpand.nil
  | cons b t ih =>
    by_cases hb : b = 9
    · subst hb
      have := TabExpand.tab 1 t (tabExpandOne t) ih
      simpa [tabExpandOne] using this
    · simpa [tabExpandOne, hb] using TabExpand.keep b t (tabExpandOne t) hb ih

theorem natDigits_lt (n : Nat) : ∀ b ∈ natDigits n, b < 128 := by
  induction n using Nat.strong_induction_on with
  | _ n ih =>
    intro b hb
    rw [natDigits] at hb
    split at hb
    · next h => simp at hb; omega
    · next h =>
      rcases List.mem_append.mp hb with h1 | h2
      · exact ih (n / 10) (Nat.div_lt_self (by omega) (by omega)) b h1
      · simp at h2
        have : n % 10 < 10 := Nat.mod_lt _ (by omega)
        omega

theorem validUtf8_natDigits (n : Nat) : validUtf8 (natDigits n) = true :=
  validUtf8_ascii (natDigits_lt n)

theorem validUtf8_typeName (t : FieldType) : validUtf8 (typeNameBytes t) = true := by
  cases t <;> decide

theorem utf8Step_lead2 {b : Nat} (h1 : 194 ≤ b) (h2 : b ≤ 223) :
    utf8Step 0 b = 1 := by
  simp [utf8Step, show ¬ b < 128 by omega, show ¬ b < 194 by omega, h2]

theorem utf8Step_lead3 {b : Nat} (h1 : 225 ≤ b) (h2 : b ≤ 236) :
    utf8Step 0 b = 2 := by
  simp [utf8Step, show ¬ b < 128 by omega, show ¬ b < 194 by omega,
    show ¬ b ≤ 223 by omega, show b ≠ 224 by omega, h2]

theorem utf8Step_lead3b {b : Nat} (h1 : 238 ≤ b) (h2 : b ≤ 239) :
    utf8Step 0 b = 2 := by
  simp [utf8Step, show ¬ b < 128 by omega, show ¬ b < 194 by omega,
    show ¬ b ≤ 223 by omega, show b ≠ 224 by omega, show ¬ b ≤ 236 by omega,
    show b ≠ 237 by omega, h2]

theorem utf8Step_lead4 {b : Nat} (h1 : 241 ≤ b) (h2 : b ≤ 243) :
    utf8Step 0 b = 3 := by
  simp [utf8Step, show ¬ b < 128 by omega, show ¬ b < 194 by omega,
    show ¬ b ≤ 223 by omega, show b ≠ 224 by omega, show ¬ b ≤ 236 by omega,
    show b ≠ 237 by omega, show ¬ b ≤ 239 by omega, show b ≠ 240 by omega, h2]

theorem utf8Step_cont1 {b : Nat} (h1 : 128 ≤ b) (h2 : b < 192) :
    utf8Step 1 b = 0 := by
  simp [utf8Step, h1, h2]

theorem utf8Step_cont2 {b : Nat} (h1 : 128 ≤ b) (h2 : b < 192) :
    utf8Step 2 b = 1 := by
  simp [utf8Step, h1, h2]

theorem utf8Step_cont3 {b : Nat} (h1 : 128 ≤ b) (h2 : b < 192) :
    utf8Step 3 b = 2 := by
  simp [utf8Step, h1, h2]

theorem utf8Step_after_e0 {b : Nat} (h1 : 160 ≤ b) (h2 : b < 192) :
    utf8Step 4 b = 1 := by
  simp [utf8Step, h1, h2]

theorem utf8Step_after_ed {b : Nat} (h1 : 128 ≤ b) (h2 : b < 160) :
    utf8Step 5 b = 1 := by
  simp [utf8Step, h1, h2]

theorem utf8Step_after_f0 {b : Nat} (h1 : 144 ≤ b) (h2 : b < 192) :
    utf8Step 6 b = 2 := by
  simp [utf8Step, h1, h2]

theorem utf8Step_after_f4 {b : Nat} (h1 : 128 ≤ b) (h2 : b < 144) :
    utf8Step 7 b = 2 := by
  simp [utf8Step, h1, h2]

theorem utf8EncodeChar_run {c : Nat}
    (h : c < 55296 ∨ (57343 < c ∧ c < 1114112)) :
    utf8Run 0 (utf8EncodeChar c) = 0 := by
  unfold utf8EncodeChar
  by_cases h1 : c < 128
  · rw [if_pos h1]
    simp only [utf8Run, List.foldl_cons, List.foldl_nil]
    exact utf8Step_ascii h1
  · rw [if_neg h1]
    by_cases h2 : c < 2048
    · rw [if_pos h2]
      simp only [utf8Run, List.foldl_cons, List.foldl_nil]
      rw [utf8Step_lead2 (by omega) (by omega), utf8Step_cont1 (by omega) (by omega)]
    · rw [if_neg h2]
      by_cases h3 : c < 65536
      · rw [if_pos h3]
        simp only [utf8Run, List.foldl_cons, List.foldl_nil]
        by_cases hA : c < 4096
        · rw [show 224 + c / 4096 = 224 by omega, show utf8Step 0 224 = 4 by decide,
            utf8Step_after_e0 (by omega) (by omega),
            utf8Step_cont1 (by omega) (by omega)]
        · by_cases hB : c < 53248
          · rw [utf8Step_lead3 (by omega) (by omega),
              utf8Step_cont2 (by omega) (by omega),
              utf8Step_cont1 (by omega) (by omega)]
          · by_cases hC : c < 55296
            · rw [show 224 + c / 4096 = 237 by omega,
                show utf8Step 0 237 = 5 by decide,
                utf8Step_after_ed (by omega) (by omega),
                utf8Step_cont1 (by omega) (by omega)]
            · have hc : 57343 < c := by
                rcases h with h' | hh
                · omega
                · exact hh.1
              rw [utf8Step_lead3b (by omega) (by omega),
                utf8Step_cont2 (by omega) (by omega),
                utf8Step_cont1 (by omega) (by omega)]
      · rw [if_neg h3]
        have hc : c < 1114112 := by
          rcases h with h' | hh
          · omega
          · exact hh.2
        simp only [utf8Run, List.foldl_cons, List.foldl_nil]
        by_cases hA : c < 262144
        · rw [show 240 + c / 262144 = 240 by omega, show utf8Step 0 240 = 6 by decide,
            utf8Step_after_f0 (by omega) (by omega),
            utf8Step_cont2 (by omega) (by omega),
            utf8Step_cont1 (by omega) (by omega)]
        · by_cases hB : c < 1048576
          · rw [utf8Step_lead4 (by omega) (by omega),
              utf8Step_cont3 (by omega) (by omega),
              utf8Step_cont2 (by omega) (by omega),
              utf8Step_cont1 (by omega) (by omega)]
          · rw [show 240 + c / 262144 = 244 by omega, show utf8Step 0 244 = 7 by decide,
              utf8Step_after_f4 (by omega) (by omega),
              utf8Step_cont2 (by omega) (by omega),
              utf8Step_cont1 (by omega) (by omega)]

theorem strBytes_valid (s : String) : validUtf8 (strBytes s) = true := by
  unfold strBytes
  apply validUtf8_flatten
  intro x hx
  rcases List.mem_map.mp hx with ⟨ch, hch, rfl⟩
  have h := ch.valid
  simp only [UInt32.isValidChar, Nat.isValidChar] at h
  simp only [validUtf8, decide_eq_true_eq]
  exact utf8EncodeChar_run h

theorem validUtf8_rowBytes (r : Nat × FieldType × String) :
    validUtf8 (rowBytes r) = true := by
  obtain ⟨i, ty, name⟩ := r
  have hname : validUtf8 (strBytes name) = true := strBytes_valid name
  show validUtf8 (9 :: (natDigits i ++ [58, 9] ++ typeNameBytes ty ++ [9]
    ++ strBytes name ++ [10])) = true
  have h9 : validUtf8 [9] = true := by decide
  have h589 : validUtf8 [58, 9] = true := by decide
  have h10 : validUtf8 [10] = true := by decide
  have : (9 : Nat) :: (natDigits i ++ [58, 9] ++ typeNameBytes ty ++ [9]
      ++ strBytes name ++ [10]) = [9] ++ (natDigits i ++ [58, 9]
      ++ typeNameBytes ty ++ [9] ++ strBytes name ++ [10]) := rfl
  rw [this]
  exact validUtf8_append h9 (validUtf8_append (validUtf8_append (validUtf8_append
    (validUtf8_append (validUtf8_append (validUtf8_natDigits i) h589)
      (validUtf8_typeName ty)) h9) hname) h10)

theorem validUtf8_fieldTableBuf (m : Metadata) :
    validUtf8 (fieldTableBuf m) = true := by
  apply validUtf8_flatten
  intro x hx
  rcases List.mem_map.mp hx with ⟨r, hr, rfl⟩
  exact validUtf8_rowBytes r

/-- Claim C1 counterexample: the spec says the `From<Dialect>` conversion
transfers escape enable + escape byte and comment enable + comment byte into
the builder.  A dialect assembled from the spec's axes with escape byte 92
and comment byte 35 enabled nevertheless yields a builder with no escape
byte, no comment byte, and the doubled-quote flag still at its default —
those axes cannot be transferred because the source `Dialect` does not carry
them. -/
theorem c1_axes_counterexample :
    (readerBuilderOfDialect (dialectOfSpecAxes 44
      { has_header_row := true, num_preamble_rows := 0 } (Quote.Some 34) false
      (Escape.Enabled 92) (Comment.Enabled 35) false true)).escape = Option.none ∧
    (readerBuilderOfDialect (dialectOfSpecAxes 44
      { has_header_row := true, num_preamble_rows := 0 } (Quote.Some 34) false
      (Escape.Enabled 92) (Comment.Enabled 35) false true)).comment = Option.none ∧
    (readerBuilderOfDialect (dialectOfSpecAxes 44
      { has_header_row := true, num_preamble_rows := 0 } (Quote.Some 34) false
      (Escape.Enabled 92) (Comment.Enabled 35) false true)).double_quote = true := by
  decide

/-- Claim C1, amended: the `From<Dialect>` conversion transfers the dialect's
delimiter byte, header/no-header flag, flexible flag, and quote enable +
quote byte; the builder's escape, comment and doubled-quote settings are not
configured from the dialect and remain at the tokenizer defaults (disabled,
disabled, enabled) for every dialect, since the source `Dialect` has no such
axes. -/
theorem c1_builder_transfer (d : Dialect) :
    (readerBuilderOfDialect d).delimiter = d.delimiter ∧
    (readerBuilderOfDialect d).has_headers = d.header.has_header_row ∧
    (readerBuilderOfDialect d).flexible = d.flexible ∧
    (∀ c, d.quote = Quote.Some c →
      (readerBuilderOfDialect d).quoting = true ∧ (readerBuilderOfDialect d).quote = c) ∧
    (d.quote = Quote.None → (readerBuilderOfDialect d).quoting = false) ∧
    (readerBuilderOfDialect d).escape = Option.none ∧
    (readerBuilderOfDialect d).comment = Option.none ∧
    (readerBuilderOfDialect d).double_quote = true := by
  cases hq : d.quote <;>
    simp [readerBuilderOfDialect, ReaderBuilder.new, hq]

/-- Witness for C1's amended theorem at a concrete dialect with an enabled
quote, discharging the quote hypotheses. -/
theorem c1_builder_transfer_witness :
    (readerBuilderOfDialect
      { delimiter := 59, header := { has_header_row := false, num_preamble_rows := 2 },
        quote := Quote.Some 39, flexible := true, is_utf8 := false }).quoting = true ∧
    (readerBuilderOfDialect
      { delimiter := 59, header := { has_header_row := false, num_preamble_rows := 2 },
        quote := Quote.Some 39, flexible := true, is_utf8 := false }).quote = 39 := by
  exact (c1_builder_transfer
    { delimiter := 59, header := { has_header_row := false, num_preamble_rows := 2 },
      quote := Quote.Some 39, flexible := true, is_utf8 := false }).2.2.2.1 39 rfl

/-- Claim C2: every `Metadata` produced by a sniff invocation satisfies
`len(fields) = len(types) = num_fields`. -/
theorem c2_metadata_invariant (s : List Nat) :
    (sniff s).fields.length = (sniff s).num_fields ∧
    (sniff s).types.length = (sniff s).num_fields := by
  unfold sniff
  constructor
  · dsimp only
    split <;> simp
  · simp

/-- Witness for C2 at the spec's end-to-end sample. -/
theorem c2_metadata_invariant_witness :
    (sniff exampleSample).fields.length = (sniff exampleSample).num_fields ∧
    (sniff exampleSample).types.length = (sniff exampleSample).num_fields :=
  c2_metadata_invariant exampleSample

/-- Claim C3: `open_reader` hands the tokenizer the stream advanced past
exactly `num_preamble_rows` lines, and the amount snipped does not depend on
`has_header_row`. -/
theorem c3_open_reader_snips (d : Dialect) (s : List Nat) (b : Bool) :
    (openReader d s).2 = snipPreamble d.header.num_preamble_rows s ∧
    (openReader { d with header := { d.header with has_header_row := b } } s).2 =
      (openReader d s).2 :=
  ⟨rfl, rfl⟩

/-- Claim C4 counterexample: the spec's field list for `Dialect` includes
escape, comment and a doubled-quote flag, and claims `d1 == d2` only if all
listed fields are pairwise equal.  Two dialects assembled from spec axes
differing in exactly the escape, comment and doubled-quote inputs compare
equal under the source's `PartialEq`, because the source `Dialect` has no
such fields. -/
theorem c4_fields_counterexample :
    dialectEq
      (dialectOfSpecAxes 44 { has_header_row := true, num_preamble_rows := 0 }
        Quote.None true Escape.Disabled Comment.Disabled false true)
      (dialectOfSpecAxes 44 { has_header_row := true, num_preamble_rows := 0 }
        Quote.None false (Escape.Enabled 92) (Comment.Enabled 35) false true) = true ∧
    (Escape.Disabled ≠ Escape.Enabled 92 ∧ Comment.Disabled ≠ Comment.Enabled 35 ∧
      true ≠ false) := by
  decide

/-- Claim C4, amended: the source `Dialect` has exactly the fields
delimiter, header, quote, flexible and is_utf8 (no escape, comment, or
doubled-quote field), and its `PartialEq` is structural over these five
fields. -/
theorem c4_structural_equality (a b : Dialect) :
    dialectEq a b = true ↔
      (a.delimiter = b.delimiter ∧ a.header = b.header ∧ a.quote = b.quote ∧
        a.flexible = b.flexible ∧ a.is_utf8 = b.is_utf8) := by
  simp [dialectEq, and_assoc]

/-- Claim C5 counterexample: the spec says an enabled `Quote` carries a
doubled-quote flag recoverable from it.  Building the spec's enabled quote
with flag `true` and with flag `false` yields the same source `Quote` value,
so the flag is not recoverable — the source variant stores only the byte. -/
theorem c5_flag_counterexample :
    quoteOfSpec 34 true = quoteOfSpec 34 false ∧ true ≠ false := by
  exact ⟨rfl, by decide⟩

/-- Claim C5, amended: `Quote` is a two-variant choice — disabled, or
enabled with a quote byte — and the byte is recoverable from every enabled
value; the enabled variant carries no doubled-quote flag. -/
theorem c5_quote_shape :
    (∀ c, quoteChar (Quote.Some c) = Option.some c) ∧
    quoteChar Quote.None = Option.none ∧
    (∀ c1 c2, Quote.Some c1 = Quote.Some c2 → c1 = c2) ∧
    (∀ q : Quote, q = Quote.None ∨ ∃ c, q = Quote.Some c) := by
  refine ⟨fun c => rfl, rfl, fun c1 c2 h => ?_, fun q => ?_⟩
  · cases h; rfl
  · cases q with
    | None => exact Or.inl rfl
    | Some c => exact Or.inr ⟨c, rfl⟩

/-- Witness for C5's amended theorem, recovering the byte of a concrete
enabled quote and discharging the injectivity hypothesis. -/
theorem c5_quote_shape_witness :
    quoteChar (Quote.Some 39) = Option.some 39 ∧ (39 : Nat) = 39 :=
  ⟨c5_quote_shape.1 39, c5_quote_shape.2.2.1 39 39 rfl⟩

/-- Claim C6: the builder obtained from a dialect has the dialect's
delimiter, header flag and flexible flag, and quoting is enabled with byte
`c` exactly when the dialect's quote is `Some c`, disabled exactly when it
is `None`; the dialect is the only input of the conversion. -/
theorem c6_builder_determined (d : Dialect) (c : Nat) :
    (readerBuilderOfDialect d).delimiter = d.delimiter ∧
    (readerBuilderOfDialect d).has_headers = d.header.has_header_row ∧
    (readerBuilderOfDialect d).flexible = d.flexible ∧
    (((readerBuilderOfDialect d).quoting = true ∧ (readerBuilderOfDialect d).quote = c)
      ↔ d.quote = Quote.Some c) ∧
    ((readerBuilderOfDialect d).quoting = false ↔ d.quote = Quote.None) := by
  cases hq : d.quote with
  | None => simp [readerBuilderOfDialect, ReaderBuilder.new, hq]
  | Some c0 =>
    refine ⟨?_, ?_, ?_, ?_, ?_⟩ <;>
      simp [readerBuilderOfDialect, ReaderBuilder.new, hq]

/-- Claim C7: sniffing is deterministic — two sniff invocations on the same
sample yield identical `Metadata`. -/
theorem c7_sniff_deterministic (s : List Nat) (m1 m2 : Metadata)
    (h1 : m1 = sniff s) (h2 : m2 = sniff s) : m1 = m2 :=
  h1.trans h2.symm

/-- Witness for C7 at the spec's end-to-end sample. -/
theorem c7_sniff_deterministic_witness :
    sniff exampleSample = sniff exampleSample :=
  c7_sniff_deterministic exampleSample (sniff exampleSample) (sniff exampleSample)
    rfl rfl

/-- Claim C8: the `Escape` and `Comment` conversions to an optional byte map
`Enabled c` to `some c` and `Disabled` to `none`, and both conversions are
injective. -/
theorem c8_option_conversions :
    (∀ c, escapeToOption (Escape.Enabled c) = Option.some c) ∧
    escapeToOption Escape.Disabled = Option.none ∧
    (∀ c, commentToOption (Comment.Enabled c) = Option.some c) ∧
    commentToOption Comment.Disabled = Option.none ∧
    (∀ e1 e2 : Escape, escapeToOption e1 = escapeToOption e2 → e1 = e2) ∧
    (∀ k1 k2 : Comment, commentToOption k1 = commentToOption k2 → k1 = k2) := by
  refine ⟨fun c => rfl, rfl, fun c => rfl, rfl, fun e1 e2 h => ?_, fun k1 k2 h => ?_⟩
  · cases e1 <;> cases e2 <;> simp [escapeToOption] at h <;> simp [h]
  · cases k1 <;> cases k2 <;> simp [commentToOption] at h <;> simp [h]

/-- Witness for C8 at concrete inputs, discharging the injectivity
hypotheses. -/
theorem c8_option_conversions_witness :
    escapeToOption (Escape.Enabled 92) = Option.some 92 ∧
    Escape.Disabled = Escape.Disabled ∧
    Comment.Enabled 35 = Comment.Enabled 35 :=
  ⟨c8_option_conversions.1 92,
    c8_option_conversions.2.2.2.2.1 Escape.Disabled Escape.Disabled rfl,
    c8_option_conversions.2.2.2.2.2 (Comment.Enabled 35) (Comment.Enabled 35) rfl⟩

/-- Claim C9: formatting a `Metadata` value never fails — for every
metadata value whatsoever and every tabwriter alignment of the written
buffer, the UTF-8 validation behind the final unwrap succeeds, so the
unwraps on flush, `into_inner` and `from_utf8` are unreachable error
branches, including when `fields` and `types` have mismatched lengths. -/
theorem c9_display_never_fails (m : Metadata) (out : List Nat)
    (hx : TabExpand (fieldTableBuf m) out) :
    displayFieldTable out = Option.some out := by
  have hb := validUtf8_fieldTableBuf m
  have ho := tabExpand_valid hx hb
  simp [displayFieldTable, ho]

/-- Witness for C9 on a metadata value whose `fields`, `types` and
`num_fields` all disagree, with each tab aligned to a single space. -/
theorem c9_display_never_fails_witness :
    displayFieldTable (tabExpandOne (fieldTableBuf
      ⟨⟨44, ⟨false, 0⟩, Quote.None, false, true⟩, 0, 5, [],
        [FieldType.Integer, FieldType.Text]⟩)) =
    Option.some (tabExpandOne (fieldTableBuf
      ⟨⟨44, ⟨false, 0⟩, Quote.None, false, true⟩, 0, 5, [],
        [FieldType.Integer, FieldType.Text]⟩)) :=
  c9_display_never_fails _ _ (tabExpandOne_spec _)

/-- Claim C10: the per-column table of the display contains exactly one row
per inferred type, indexed from 0, independently of `num_fields`; the name
column is `fields.getD i ""`, so names missing from a short `fields` render
as the empty string and entries of `fields` beyond `types.length` never
appear. -/
theorem c10_table_rows (m : Metadata) :
    (displayRows m).length = m.types.length ∧
    (∀ k, displayRows { m with num_fields := k } = displayRows m) ∧
    displayRows m = (List.range m.types.length).map
      (fun i => (i, m.types.getD i FieldType.Text, m.fields.getD i "")) := by
  refine ⟨by simp [displayRows], fun k => rfl, ?_⟩
  apply List.ext_getElem
  · simp [displayRows]
  · intro i h1 h2
    have hi : i < m.types.length := by
      simpa [displayRows] using h1
    simp only [displayRows, List.getElem_map, List.getElem_enum, List.getElem_range]
    rw [List.getD_eq_getElem m.types FieldType.Text hi]

end Csv
